import Mathlib

/-!
Verification development for the binder-design pipeline repository.

Part 1 embeds `scripts/detect_interface.py` (the interface-residue
detector); part 2 embeds the relevant logic of `scripts/run_pipeline.py`
(the pipeline driver): the score-report scraping, the per-candidate
scoring loop with its failure handling, the ranking sort and the final
left-merge aggregation.

Conventions of the embedding:
  * floats are modelled as rationals;
  * `dist <= cutoff` over Euclidean distance is encoded without square
    roots as `0 <= cutoff ∧ dist² <= cutoff²`, which is equivalent for
    real inputs;
  * Python dicts keyed by chain id are association lists in insertion
    order, with assignment replacing in place (as Python does);
  * outcomes of external subprocess invocations and filesystem
    lookups are inputs of the model, since the tools themselves are
    out of scope.
-/

namespace BinderPipeline

/-! ## Shared structural data model (Bio.PDB as used by both scripts)

A residue carries the hetero-flag test `res.id[0] == ' '` (here
`standard`), its author sequence position `res.id[1]`, and optionally
the coordinate of its C-alpha atom (`'CA' in res`). -/

abbrev Coord := ℚ × ℚ × ℚ

structure Residue where
  standard : Bool
  pos : Int
  ca : Option Coord
deriving DecidableEq

structure Chain where
  id : String
  residues : List Residue
deriving DecidableEq

/-! ## detect_interface.py -/

/-- Squared Euclidean distance, `np.linalg.norm(a - b) ** 2`. -/
def sqDist (p q : Coord) : ℚ :=
  (p.1 - q.1) ^ 2 + (p.2.1 - q.2.1) ^ 2 + (p.2.2 - q.2.2) ^ 2

/-- `dist <= cutoff` (line 49), encoded on squared distances: for real
coordinates `sqrt d ≤ c ↔ 0 ≤ c ∧ d ≤ c²`. -/
def withinCutoff (p q : Coord) (cutoff : ℚ) : Bool :=
  decide (0 ≤ cutoff) && decide (sqDist p q ≤ cutoff ^ 2)

/-- The `interfaces` dict: chain id to set of residue positions, kept
in insertion order as Python dicts are. -/
abbrev Interfaces := List (String × Finset Int)

/-- Python dict assignment `d[k] = v`: replaces in place when the key
exists, else appends. -/
def dictSet (d : Interfaces) (k : String) (v : Finset Int) : Interfaces :=
  if d.any (fun e => e.1 == k) then
    d.map (fun e => if e.1 == k then (k, v) else e)
  else
    d ++ [(k, v)]

/-- Python dict lookup `d[k]` (first entry with the key). -/
def dictLookup (d : Interfaces) (k : String) : Option (Finset Int) :=
  (d.find? (fun e => e.1 == k)).map (fun e => e.2)

/-- `d[k].add(v)`, creating the key with an empty set first when it is
absent — exactly what lines 50-53 do (line 50's key always exists, so
the defaulting branch is inert there). -/
def dictAdd (d : Interfaces) (k : String) (v : Int) : Interfaces :=
  dictSet d k (insert v ((dictLookup d k).getD ∅))

/-- Inner residue loop (lines 44-53): scan chain B's residues against
one residue of chain A that already passed the guard of line 43
(`ra.standard` with coordinate `pa`, position `apos`), threading the
`interfaces` dict through the iterations. -/
def innerScan (aid bid : String) (pa : Coord) (apos : Int) (cutoff : ℚ) :
    List Residue → Interfaces → Interfaces
  | [], d => d
  | rb :: rest, d =>
      innerScan aid bid pa apos cutoff rest
        (match rb.ca with
         | some pb =>
             if rb.standard && withinCutoff pa pb cutoff then
               dictAdd (dictAdd d aid apos) bid rb.pos
             else d
         | none => d)

/-- Outer residue loop (lines 42-53), iterating chain A's residues
(`rbs` is chain B's residue list, fixed). -/
def outerScan (aid bid : String) (cutoff : ℚ) (rbs : List Residue) :
    List Residue → Interfaces → Interfaces
  | [], d => d
  | ra :: rest, d =>
      outerScan aid bid cutoff rbs rest
        (match ra.ca with
         | some pa => if ra.standard then innerScan aid bid pa ra.pos cutoff rbs d else d
         | none => d)

/-- Inner chain loop (lines 38-53): `if i >= j: continue` means chain A
is scanned against exactly the chains after it in list order. -/
def scanAgainst (cA : Chain) (cutoff : ℚ) : List Chain → Interfaces → Interfaces
  | [], d => d
  | cB :: rest, d =>
      scanAgainst cA cutoff rest
        (outerScan cA.id cB.id cutoff cB.residues cA.residues d)

/-- Outer chain loop (lines 35-53).  Note that line 36 assigns a fresh
empty set to `interfaces[chain_a.id]` unconditionally, clobbering
whatever was accumulated for that chain while it played the `chain_b`
role in earlier iterations. -/
def detectLoop : List Chain → ℚ → Interfaces → Interfaces
  | [], _, d => d
  | cA :: rest, cutoff, d =>
      detectLoop rest cutoff (scanAgainst cA cutoff rest (dictSet d cA.id ∅))

/-- `detect_interface` (lines 17-55), after parsing: `None` is the
"not applicable" sentinel for fewer than two chains. -/
def detect_interface (chains : List Chain) (cutoff : ℚ) : Option Interfaces :=
  if chains.length < 2 then none
  else some (detectLoop chains cutoff [])

/-- Exit code of the detector CLI `main` (lines 57-107, 109-110):
1 when `detect_interface` returned the sentinel, else 0. -/
def detector_main_exit (chains : List Chain) (cutoff : ℚ) : Nat :=
  match detect_interface chains cutoff with
  | none => 1
  | some _ => 0

/-- Witness predicate for soundness: position `p` reported for chain id
`cid` is justified by a standard residue with a C-alpha coordinate in a
chain of that id, within cutoff of such a residue of a chain occupying
a different position of the chain list. -/
def CrossContact (chains : List Chain) (cutoff : ℚ) (cid : String) (p : Int) : Prop :=
  ∃ cOwn cOther : Chain,
    (List.Sublist [cOwn, cOther] chains ∨ List.Sublist [cOther, cOwn] chains) ∧
    cOwn.id = cid ∧
    ∃ ra, ra ∈ cOwn.residues ∧ ra.standard = true ∧ ra.pos = p ∧
    ∃ pa pb, ra.ca = some pa ∧
    ∃ rb, rb ∈ cOther.residues ∧ rb.standard = true ∧ rb.ca = some pb ∧
    withinCutoff pa pb cutoff = true

/-- Every entry of an interfaces dict is justified by a cross-chain
contact. -/
def Sound (chains : List Chain) (cutoff : ℚ) (d : Interfaces) : Prop :=
  ∀ e ∈ d, ∀ p ∈ e.2, CrossContact chains cutoff e.1 p

/-! ## run_pipeline.py — score-report scraping (run_ipsae, lines 99-114) -/

def maxMarker : String := "max"

def hashMark : String := "#"

def emptyStr : String := ""

def dotChar : Char := '.'

/-- Split a character list at every character satisfying `p`, keeping
empty segments (the segment structure of `str.split(sep)`). -/
def splitBy (p : Char → Bool) : List Char → List Char → List (List Char)
  | [], acc => [acc.reverse]
  | c :: cs, acc =>
      if p c then acc.reverse :: splitBy p cs []
      else splitBy p cs (c :: acc)

/-- Python `line.split()`: split on whitespace runs, dropping empty
tokens. -/
def pySplit (s : String) : List String :=
  ((splitBy (fun c => c.isWhitespace) s.toList []).map
      (fun cs => String.mk cs)).filter (fun t => t ≠ emptyStr)

/-- Python substring containment `pat in s`, on character lists. -/
def hasInfix (pat : List Char) : List Char → Bool
  | [] => pat.isEmpty
  | c :: rest => pat.isPrefixOf (c :: rest) || hasInfix pat rest

/-- Line filter of line 104: `'max' in line and line.strip() and not
line.startswith('#')`.  The containment test is substring containment,
and a line strips to truthy iff it has a non-whitespace character,
i.e. iff `pySplit` of it is nonempty. -/
def isCandidateLine (line : String) : Bool :=
  hasInfix maxMarker.toList line.toList
    && !(pySplit line).isEmpty
    && !(hashMark.toList.isPrefixOf line.toList)

/-- The `try: ipSAE = float(parts[5]); pDockQ = float(parts[10])
except: pass` block (lines 107-111): if the first conversion fails,
neither score is set; if only the second fails, the first stays set.
The Python `float` conversion itself is a builtin, passed in as `pf`. -/
def tryParseTwo (pf : String → Option ℚ) (parts : List String) : Option ℚ × Option ℚ :=
  match pf (parts.getD 5 emptyStr) with
  | none => (none, none)
  | some a => (some a, pf (parts.getD 10 emptyStr))

/-- Report scan of lines 102-112: first non-comment, non-blank line
containing `max` is split; with at least 11 fields the two scores are
read and the loop breaks; with fewer fields the scan continues. -/
def parseIpsaeReport (pf : String → Option ℚ) : List String → Option ℚ × Option ℚ
  | [] => (none, none)
  | line :: rest =>
    if isCandidateLine line then
      if 11 ≤ (pySplit line).length then tryParseTwo pf (pySplit line)
      else parseIpsaeReport pf rest
    else parseIpsaeReport pf rest

/-- The spec sentence behind claim C8, taken at its word: the selected
row *begins with* the `max` marker (and is not a comment). -/
def beginsWithMaxLine (line : String) : Bool :=
  maxMarker.toList.isPrefixOf line.toList
    && !(pySplit line).isEmpty
    && !(hashMark.toList.isPrefixOf line.toList)

/-- Report scraping as claim C8 words it: first row beginning with a
non-comment `max` marker and holding at least 11 fields. -/
def specParseBeginsMax (pf : String → Option ℚ) (lines : List String) :
    Option ℚ × Option ℚ :=
  match lines.find? (fun l => beginsWithMaxLine l && decide (11 ≤ (pySplit l).length)) with
  | none => (none, none)
  | some l => tryParseTwo pf (pySplit l)

/-- The amended reading of claim C8: same, but the row merely
*contains* the `max` marker, as line 104 actually tests. -/
def specParseContainsMax (pf : String → Option ℚ) (lines : List String) :
    Option ℚ × Option ℚ :=
  match lines.find? (fun l => isCandidateLine l && decide (11 ≤ (pySplit l).length)) with
  | none => (none, none)
  | some l => tryParseTwo pf (pySplit l)

/-- A concrete decimal-number parser standing in for Python `float` in
closed examples: digits, or digits-dot-digits. -/
def digitsVal (cs : List Char) : Option Nat :=
  match cs with
  | [] => none
  | _ => if cs.all (fun c => c.isDigit) then
           some (cs.foldl (fun n c => 10 * n + (c.toNat - 48)) 0)
         else none

/-- Concrete float syntax used to instantiate `pf` in closed examples. -/
def pf0 (s : String) : Option ℚ :=
  match splitBy (fun c => c = dotChar) s.toList [] with
  | [w] => (digitsVal w).map (fun n => (n : ℚ))
  | [w, f] =>
    match digitsVal w, digitsVal f with
    | some a, some b => some ((a : ℚ) + (b : ℚ) / (10 : ℚ) ^ f.length)
    | _, _ => none
  | _ => none

/-! ## run_pipeline.py — per-candidate scoring loop (phase 3) -/

/-- How one external `subprocess.run` call with a timeout ends:
normal exit with code 0, normal exit with nonzero code, or
`subprocess.TimeoutExpired` raised. -/
inductive SubprocessOutcome
  | ok
  | fail
  | timedOut
deriving DecidableEq

/-- Everything the loop body of lines 292-372 observes about one
candidate: which files exist, how each tool invocation ends, and the
text of the scoring report. -/
structure CandidateEnv where
  cifExists : Bool
  chainBFound : Bool
  chainAFound : Bool
  boltz2Run : SubprocessOutcome
  paeFound : Bool
  plddtFound : Bool
  predCifFound : Bool
  combineOk : Bool
  ipsaeScriptExists : Bool
  ipsaeRun : SubprocessOutcome
  ipsaeOutFound : Bool
  reportLines : List String
deriving DecidableEq

/-- `run_ipsae` (lines 79-114).  `Except.error ()` marks an exception
(`TimeoutExpired`) escaping the function — nothing in it or in its
caller catches one. -/
def run_ipsae (pf : String → Option ℚ) (e : CandidateEnv) :
    Except Unit (Option ℚ × Option ℚ) :=
  if e.ipsaeScriptExists = false then Except.ok (none, none)
  else
    match e.ipsaeRun with
    | SubprocessOutcome.timedOut => Except.error ()
    | SubprocessOutcome.fail => Except.ok (none, none)
    | SubprocessOutcome.ok =>
        if e.ipsaeOutFound = false then Except.ok (none, none)
        else Except.ok (parseIpsaeReport pf e.reportLines)

/-- `float(x) if x else None` (lines 364-365): Python truthiness, under
which both `None` and `0.0` are falsy, so a parsed score of exactly 0.0
is stored as `None`. -/
def recordedScore : Option ℚ → Option ℚ
  | none => none
  | some v => if v = 0 then none else some v

/-- How one iteration of the scoring loop ends: `continue` to the next
candidate (with or without a logged warning), an uncaught exception
killing the whole run, or a result row appended with the two recorded
scores. -/
inductive CandidateOutcome
  | skipped (warned : Bool)
  | aborted
  | recorded (ipSAE pDockQ : Option ℚ)
deriving DecidableEq

/-- The loop body of lines 292-372 for one candidate, in source order:
missing CIF (line 298) and missing chain B (line 303) skip with a
warning; `sequences['A']` (line 308) raises `KeyError` when chain A is
absent; `run_boltz2` (line 322) skips on failure but its
`TimeoutExpired` (line 76) is uncaught; incomplete outputs (line 334)
skip with a warning; a failed combine (line 341) skips silently;
`run_ipsae` (line 344) records `None` scores on its internal failure
paths but lets `TimeoutExpired` (line 88) escape; otherwise a result
row is appended (lines 357-370) with the truthiness-filtered scores. -/
def processCandidate (pf : String → Option ℚ) (e : CandidateEnv) : CandidateOutcome :=
  if e.cifExists = false then CandidateOutcome.skipped true
  else if e.chainBFound = false then CandidateOutcome.skipped true
  else if e.chainAFound = false then CandidateOutcome.aborted
  else
    match e.boltz2Run with
    | SubprocessOutcome.timedOut => CandidateOutcome.aborted
    | SubprocessOutcome.fail => CandidateOutcome.skipped true
    | SubprocessOutcome.ok =>
        if (e.paeFound && e.plddtFound && e.predCifFound) = false then
          CandidateOutcome.skipped true
        else if e.combineOk = false then CandidateOutcome.skipped false
        else
          match run_ipsae pf e with
          | Except.error _ => CandidateOutcome.aborted
          | Except.ok (a, b) => CandidateOutcome.recorded (recordedScore a) (recordedScore b)

/-- The whole phase-3 batch: candidates processed in order, results
accumulated; an uncaught exception ends the run with no results at all
(`none`). -/
def runScoring (pf : String → Option ℚ) : List CandidateEnv → Option (List (Option ℚ × Option ℚ))
  | [] => some []
  | e :: rest =>
    match processCandidate pf e with
    | CandidateOutcome.aborted => none
    | CandidateOutcome.skipped _ => runScoring pf rest
    | CandidateOutcome.recorded a b => (runScoring pf rest).map (fun t => (a, b) :: t)

/-- Exactly the candidate configurations on which the loop body raises
an uncaught exception: chain A absent from the design structure, or a
timeout of either external invocation at a reachable point. -/
def abortsCandidate (e : CandidateEnv) : Prop :=
  e.cifExists = true ∧ e.chainBFound = true ∧
    (e.chainAFound = false ∨
     (e.chainAFound = true ∧ e.boltz2Run = SubprocessOutcome.timedOut) ∨
     (e.chainAFound = true ∧ e.boltz2Run = SubprocessOutcome.ok ∧
      e.paeFound = true ∧ e.plddtFound = true ∧ e.predCifFound = true ∧
      e.combineOk = true ∧ e.ipsaeScriptExists = true ∧
      e.ipsaeRun = SubprocessOutcome.timedOut))

instance (e : CandidateEnv) : Decidable (abortsCandidate e) := by
  unfold abortsCandidate; infer_instance

/-! ## run_pipeline.py — ranking stage (phase 2, lines 255-273) -/

/-- What the ranking scan observes about one `.npz` file: its stem,
whether loading and reading succeed, and the three scores read with
`data.get(key, 0)` defaults. -/
structure NpzFile where
  stem : String
  loadOk : Bool
  d2t_iptm : ℚ
  iptm : ℚ
  ptm : ℚ
deriving DecidableEq

/-- One row of the ranking table. -/
structure RankRec where
  design_name : String
  design_to_target_iptm : ℚ
  iptm : ℚ
  ptm : ℚ
deriving DecidableEq

def rankRecOf (f : NpzFile) : RankRec :=
  { design_name := f.stem
    design_to_target_iptm := f.d2t_iptm
    iptm := f.iptm
    ptm := f.ptm }

/-- Lines 255-266: one row per loadable file, load failures skipped
with a warning. -/
def rankingTable (files : List NpzFile) : List RankRec :=
  (files.filter (fun f => f.loadOk)).map rankRecOf

def iptmKey (r : RankRec) : ℚ := r.design_to_target_iptm

/-- Weakly descending adjacent order by a key. -/
def SortedDescBy {α : Type} (key : α → ℚ) (l : List α) : Prop :=
  List.Chain' (fun a b => key b ≤ key a) l

/-- What `df.sort_values(col, ascending=False)` (lines 273 and 401)
guarantees about its output: a permutation of the input arranged in
descending key order.  The call leaves `kind` at its default
`'quicksort'`, which pandas documents as not stable, so nothing more —
in particular no tie order — is guaranteed. -/
def SortsDescBy {α : Type} (key : α → ℚ) (input output : List α) : Prop :=
  List.Perm output input ∧ SortedDescBy key output

/-- Ties keep their input encounter order — the stability property
claim C2 asserts of the ranking sort: any two equal-key records that
occur in the input in the order `x` before `y` (`[x, y]` a sublist)
occur in the output in that same order. -/
def TiesPreserveOrder {α : Type} (key : α → ℚ) (input output : List α) : Prop :=
  ∀ x ∈ input, ∀ y ∈ input, key x = key y →
    List.Sublist [x, y] input → List.Sublist [x, y] output

/-! ## run_pipeline.py — final aggregation (phase 4, lines 393-406) -/

/-- The columns of one `results` row that the merge of lines 394-398
selects. -/
structure ScoreRec where
  design_name : String
  binder_sequence : String
  binder_length : Nat
  ipSAE : Option ℚ
  pDockQ : Option ℚ
  interface_pae : ℚ
  avg_plddt : ℚ
deriving DecidableEq

/-- One row of the merged final table: ranking columns plus the
scoring columns, the latter optional because a left merge fills them
with nulls for unmatched rows. -/
structure FinalRec where
  design_name : String
  design_to_target_iptm : ℚ
  iptm : ℚ
  ptm : ℚ
  binder_sequence : Option String
  binder_length : Option Nat
  ipSAE : Option ℚ
  pDockQ : Option ℚ
  interface_pae : Option ℚ
  avg_plddt : Option ℚ
deriving DecidableEq

def matchedRow (l : RankRec) (r : ScoreRec) : FinalRec :=
  { design_name := l.design_name
    design_to_target_iptm := l.design_to_target_iptm
    iptm := l.iptm
    ptm := l.ptm
    binder_sequence := some r.binder_sequence
    binder_length := some r.binder_length
    ipSAE := r.ipSAE
    pDockQ := r.pDockQ
    interface_pae := some r.interface_pae
    avg_plddt := some r.avg_plddt }

def unmatchedRow (l : RankRec) : FinalRec :=
  { design_name := l.design_name
    design_to_target_iptm := l.design_to_target_iptm
    iptm := l.iptm
    ptm := l.ptm
    binder_sequence := none
    binder_length := none
    ipSAE := none
    pDockQ := none
    interface_pae := none
    avg_plddt := none }

/-- `df.merge(results_df[cols], on='design_name', how='left')`
(lines 394-398): left row order kept; each left row paired with every
matching right row, or null-padded when none matches. -/
def leftMergeOnName (left : List RankRec) (right : List ScoreRec) : List FinalRec :=
  left.flatMap (fun l =>
    match right.filter (fun r => r.design_name == l.design_name) with
    | [] => [unmatchedRow l]
    | ms => ms.map (matchedRow l))

/-- `all_df['ipSAE'].fillna(0)` (line 400): the final sort key. -/
def finalSortKey (f : FinalRec) : ℚ := (f.ipSAE).getD 0

/-- Lines 393-402 as a relation: the final table is a descending
arrangement (by null-filled ipSAE) of the left-merged table. -/
def AggregatesTo (df : List RankRec) (results : List ScoreRec)
    (final : List FinalRec) : Prop :=
  SortsDescBy finalSortKey (leftMergeOnName df results) final

/-! ## run_pipeline.py — target setup (lines 146-159) -/

def chainIdA : String := "A"

/-- What the setup observes about the target file. -/
structure TargetFile where
  parses : Bool
  model0 : List Chain
deriving DecidableEq

/-- How the setup of lines 146-159 ends. -/
inductive SetupOutcome
  | fatalExit1
  | uncaughtKeyError
  | proceeds (targetSize : Nat)
deriving DecidableEq

/-- Lines 146-159: parse failures are caught, logged and turn into
exit code 1; the unguarded `structure[0]['A']` of line 158 raises
`KeyError` when the first model has no chain `A`; otherwise the
standard residues of chain `A` are counted. -/
def mainTargetSetup (t : TargetFile) : SetupOutcome :=
  if t.parses = false then SetupOutcome.fatalExit1
  else
    match t.model0.find? (fun c => c.id == chainIdA) with
    | none => SetupOutcome.uncaughtKeyError
    | some ch => SetupOutcome.proceeds ((ch.residues.filter (fun r => r.standard)).length)

/-! ## Concrete instances used by closed theorems and witnesses -/

/-- Two chains whose single residues sit at Euclidean distance exactly
8 (the default cutoff): `(0,0,0)` and `(8,0,0)`. -/
def chainsBoundary : List Chain :=
  [ { id := "A", residues := [{ standard := true, pos := 1, ca := some (0, 0, 0) }] },
    { id := "B", residues := [{ standard := true, pos := 2, ca := some (8, 0, 0) }] } ]

/-- The spec's own worked example (spec §8): chain A with residues
1-3 of which only residue 2 lies within the cutoff of chain B's residue
10 (distance 5), the others far away (distance 100). -/
def chainsExample : List Chain :=
  [ { id := "A", residues :=
        [ { standard := true, pos := 1, ca := some (100, 0, 0) },
          { standard := true, pos := 2, ca := some (3, 4, 0) },
          { standard := true, pos := 3, ca := some (0, 100, 0) } ] },
    { id := "B", residues := [{ standard := true, pos := 10, ca := some (0, 0, 0) }] } ]

/-- A single-chain structure. -/
def singleChain : List Chain :=
  [ { id := "A", residues := [{ standard := true, pos := 1, ca := some (0, 0, 0) }] } ]

/-- A candidate whose structure-prediction invocation times out; every
file it needs is present. -/
def envBoltzTimeout : CandidateEnv :=
  { cifExists := true, chainBFound := true, chainAFound := true
    boltz2Run := SubprocessOutcome.timedOut
    paeFound := true, plddtFound := true, predCifFound := true
    combineOk := true, ipsaeScriptExists := true
    ipsaeRun := SubprocessOutcome.ok, ipsaeOutFound := true
    reportLines := [] }

/-- A score-report row whose `max` tag, 11 fields and parsable scores
make it the row lines 104-112 select. -/
def reportRowGood : String := "max A B 8 8 1.5 a b c d 2.5"

/-- A report row both of whose scores are exactly `0.0`. -/
def reportRowZero : String := "max A B 8 8 0.0 a b c d 0.0"

/-- A row that *contains* the `max` marker without beginning with it
(11 fields, parsable scores). -/
def reportRowContains : String := "score_max h h h h 9.9 h h h h 8.8"

/-- A candidate for which everything succeeds. -/
def envGood : CandidateEnv :=
  { cifExists := true, chainBFound := true, chainAFound := true
    boltz2Run := SubprocessOutcome.ok
    paeFound := true, plddtFound := true, predCifFound := true
    combineOk := true, ipsaeScriptExists := true
    ipsaeRun := SubprocessOutcome.ok, ipsaeOutFound := true
    reportLines := [reportRowGood] }

/-- A candidate whose scoring succeeds with both scores parsed as
exactly `0.0`. -/
def envZeroScores : CandidateEnv :=
  { envGood with reportLines := [reportRowZero] }

/-- Two loadable ranking files with equal primary scores. -/
def npzFilesTie : List NpzFile :=
  [ { stem := "d1", loadOk := true, d2t_iptm := 5, iptm := 0, ptm := 0 },
    { stem := "d2", loadOk := true, d2t_iptm := 5, iptm := 0, ptm := 0 } ]

/-- The tied ranking rows emitted from `npzFilesTie`, in reversed
encounter order — a legitimate output of an unstable descending sort. -/
def rankedTieSwapped : List RankRec :=
  [ rankRecOf { stem := "d2", loadOk := true, d2t_iptm := 5, iptm := 0, ptm := 0 },
    rankRecOf { stem := "d1", loadOk := true, d2t_iptm := 5, iptm := 0, ptm := 0 } ]

/-- Three loadable ranking files, scores following the shape of the
spec §8 example (scaled to whole numbers). -/
def npzFilesExample : List NpzFile :=
  [ { stem := "c1", loadOk := true, d2t_iptm := 91, iptm := 0, ptm := 0 },
    { stem := "c2", loadOk := true, d2t_iptm := 40, iptm := 0, ptm := 0 },
    { stem := "c3", loadOk := true, d2t_iptm := 77, iptm := 0, ptm := 0 } ]

/-- Those three rows in descending score order. -/
def rankedExample : List RankRec :=
  [ { design_name := "c1", design_to_target_iptm := 91, iptm := 0, ptm := 0 },
    { design_name := "c3", design_to_target_iptm := 77, iptm := 0, ptm := 0 },
    { design_name := "c2", design_to_target_iptm := 40, iptm := 0, ptm := 0 } ]

/-- The aggregation example: the ranked table of the three
candidates. -/
def dfExample : List RankRec := rankedExample

/-- Only candidate `c2` was scored, with interface score 55. -/
def resultsExample : List ScoreRec :=
  [ { design_name := "c2", binder_sequence := "SEQ", binder_length := 3
      ipSAE := some 55, pDockQ := some 50
      interface_pae := 1, avg_plddt := 2 } ]

/-- The final table of the aggregation example: `c2` (55) first, then
`c1` and `c3` (nulls, sort key 0). -/
def finalExample : List FinalRec :=
  [ matchedRow { design_name := "c2", design_to_target_iptm := 40, iptm := 0, ptm := 0 }
      { design_name := "c2", binder_sequence := "SEQ", binder_length := 3
        ipSAE := some 55, pDockQ := some 50
        interface_pae := 1, avg_plddt := 2 },
    unmatchedRow { design_name := "c1", design_to_target_iptm := 91, iptm := 0, ptm := 0 },
    unmatchedRow { design_name := "c3", design_to_target_iptm := 77, iptm := 0, ptm := 0 } ]

/-- A rank row and a null-score result row used to compare the two
kinds of null in the merged table. -/
def rankRowD : RankRec :=
  { design_name := "d0", design_to_target_iptm := 1, iptm := 1, ptm := 1 }

/-- A result row whose two scores were truthiness-filtered to `None`. -/
def scoreRowNullD : ScoreRec :=
  { design_name := "d0", binder_sequence := "S", binder_length := 1
    ipSAE := none, pDockQ := none, interface_pae := 3, avg_plddt := 4 }

/-- A target file that parses but whose first model has no chain `A`. -/
def targetNoChainA : TargetFile :=
  { parses := true
    model0 := [{ id := "B", residues := [{ standard := true, pos := 1, ca := some (0, 0, 0) }] }] }

/-! ## Theorems -/

/-- Claim C4 (code_bug evidence).  The distance comparison of line 49
is indeed inclusive: the residue pair of `chainsBoundary` at Euclidean
distance exactly the cutoff passes it (first conjunct), and chain A's
interface set does receive position 1.  But the mapping the function
returns carries an empty set for chain B: the reset of line 36 erased
position 2 again when the outer loop reached chain B, so the pair at
distance exactly the cutoff is *not* included in both interface sets,
contrary to the claim. -/
theorem C4_boundary_pair_lost :
    withinCutoff ((0 : ℚ), 0, 0) (8, 0, 0) 8 = true ∧
    detect_interface chainsBoundary 8
      = some [("A", ({1} : Finset Int)), ("B", (∅ : Finset Int))] := by
  have w1 : withinCutoff ((0 : ℚ), 0, 0) (8, 0, 0) 8 = true := by
    norm_num [withinCutoff, sqDist]
  refine ⟨w1, ?_⟩
  simp [detect_interface, detectLoop, scanAgainst, outerScan, innerScan,
    dictAdd, dictSet, dictLookup, chainsBoundary, w1,
    -Prod.mk_zero_zero, -Prod.mk_one_one]

/-- Claim C5 (code_bug evidence).  On the spec's own worked example
(chain A residues 1-3, residue 2 within distance 5 of chain B residue
10, cutoff 8) the detector returns interface(A) = {2} but
interface(B) = ∅ instead of {10}: line 36 reassigns
`interfaces['B'] = set()` when the outer loop reaches chain B, erasing
the residue added from the (A,B) scan, so the claimed symmetry
`s ∈ interface(B)` fails. -/
theorem C5_symmetry_broken :
    withinCutoff ((3 : ℚ), 4, 0) (0, 0, 0) 8 = true ∧
    detect_interface chainsExample 8
      = some [("A", ({2} : Finset Int)), ("B", (∅ : Finset Int))] ∧
    (10 : Int) ∉ (∅ : Finset Int) := by
  have w1 : withinCutoff ((100 : ℚ), 0, 0) (0, 0, 0) 8 = false := by
    norm_num [withinCutoff, sqDist]
  have w2 : withinCutoff ((3 : ℚ), 4, 0) (0, 0, 0) 8 = true := by
    norm_num [withinCutoff, sqDist]
  have w3 : withinCutoff ((0 : ℚ), 100, 0) (0, 0, 0) 8 = false := by
    norm_num [withinCutoff, sqDist]
  refine ⟨w2, ?_, by simp⟩
  simp [detect_interface, detectLoop, scanAgainst, outerScan, innerScan,
    dictAdd, dictSet, dictLookup, chainsExample, w1, w2, w3,
    -Prod.mk_zero_zero, -Prod.mk_one_one]

/-- Claim C7: a structure with fewer than two chains always yields the
`None` sentinel (never an empty mapping) and makes the detector CLI
exit with code 1, while a multi-chain structure yields a real mapping
and exit code 0. -/
theorem C7_sentinel_and_exit_codes : ∀ (chains : List Chain) (cutoff : ℚ),
    (chains.length < 2 →
      detect_interface chains cutoff = none ∧ detector_main_exit chains cutoff = 1) ∧
    (2 ≤ chains.length →
      (detect_interface chains cutoff).isSome = true ∧ detector_main_exit chains cutoff = 0) := by
  intro chains cutoff
  constructor
  · intro h
    unfold detector_main_exit detect_interface
    rw [if_pos h]
    exact ⟨rfl, rfl⟩
  · intro h
    have h2 : ¬ chains.length < 2 := by omega
    unfold detector_main_exit detect_interface
    rw [if_neg h2]
    exact ⟨rfl, rfl⟩

/-- Witness for C7 at concrete inputs: the single-chain structure
exits 1, the two-chain example exits 0. -/
theorem C7_witness :
    detector_main_exit singleChain 8 = 1 ∧ detector_main_exit chainsExample 8 = 0 :=
  ⟨((C7_sentinel_and_exit_codes singleChain 8).1 (by norm_num [singleChain])).2,
   ((C7_sentinel_and_exit_codes chainsExample 8).2 (by norm_num [chainsExample])).2⟩

/-- Claim C9: a score whose parsed value is exactly 0.0 is recorded as
null.  On `envZeroScores` the report parses to `(some 0, some 0)`, yet
the appended record carries `none` in both score fields because lines
364-365 test Python truthiness rather than `is not None`; those fields
are then identical to the ones a never-scored design shows after the
left merge. -/
theorem C9_zero_score_recorded_null :
    parseIpsaeReport pf0 envZeroScores.reportLines = (some 0, some 0) ∧
    processCandidate pf0 envZeroScores = CandidateOutcome.recorded none none ∧
    (matchedRow rankRowD scoreRowNullD).ipSAE = (unmatchedRow rankRowD).ipSAE ∧
    (matchedRow rankRowD scoreRowNullD).pDockQ = (unmatchedRow rankRowD).pDockQ := by
  refine ⟨?_, ?_, rfl, rfl⟩
  · simp +decide [envZeroScores, envGood, parseIpsaeReport, isCandidateLine, pySplit,
      splitBy, tryParseTwo, pf0, reportRowZero, maxMarker, hashMark, emptyStr,
      dotChar, hasInfix, digitsVal]
  · simp +decide [processCandidate, run_ipsae, envZeroScores, envGood, recordedScore,
      parseIpsaeReport, isCandidateLine, pySplit, splitBy, tryParseTwo, pf0,
      reportRowZero, maxMarker, hashMark, emptyStr, dotChar, hasInfix, digitsVal]

/-- Claim C10: a target file that parses but whose first model lacks a
chain `A` makes the unguarded `structure[0]['A']` of line 158 raise
`KeyError`, terminating the run with a traceback rather than through
the logged-error-and-exit-1 path that handles parse failures. -/
theorem C10_missing_chainA_crash : ∀ t : TargetFile, t.parses = true →
    (∀ c ∈ t.model0, c.id ≠ chainIdA) →
    mainTargetSetup t = SetupOutcome.uncaughtKeyError ∧
    mainTargetSetup t ≠ SetupOutcome.fatalExit1 := by
  intro t hp hA
  have hfind : t.model0.find? (fun c => c.id == chainIdA) = none := by
    apply List.find?_eq_none.mpr
    intro c hc
    simpa using hA c hc
  constructor
  · simp [mainTargetSetup, hp, hfind]
  · simp [mainTargetSetup, hp, hfind]

/-- Witness for C10: the concrete chain-B-only target crashes with the
uncaught `KeyError`. -/
theorem C10_witness : mainTargetSetup targetNoChainA = SetupOutcome.uncaughtKeyError :=
  (C10_missing_chainA_crash targetNoChainA rfl
    (by intro c hc; simp [targetNoChainA] at hc; simp [hc, chainIdA])).1

/-- A descending adjacent chain gives descending pairwise order (the
key order is transitive). -/
theorem pairwise_of_sortedDescBy {α : Type} (key : α → ℚ) (l : List α)
    (h : SortedDescBy key l) : List.Pairwise (fun a b => key b ≤ key a) l := by
  haveI : IsTrans α (fun a b => key b ≤ key a) :=
    ⟨fun _ _ _ hab hbc => le_trans hbc hab⟩
  exact List.chain'_iff_pairwise.mp h

/-- Claim C8 (counterexample).  On a report whose first line merely
*contains* the `max` marker (`reportRowContains`) while the second line
*begins* with it (`reportRowGood`), the driver's parser takes the
scores from the first line — the claim, which says the selected row
begins with the marker, predicts the second line's scores. -/
theorem C8_counterexample :
    parseIpsaeReport pf0 [reportRowContains, reportRowGood]
      = (some (99/10), some (44/5)) ∧
    specParseBeginsMax pf0 [reportRowContains, reportRowGood]
      = (some (3/2), some (5/2)) ∧
    parseIpsaeReport pf0 [reportRowContains, reportRowGood]
      ≠ specParseBeginsMax pf0 [reportRowContains, reportRowGood] := by
  have h1 : parseIpsaeReport pf0 [reportRowContains, reportRowGood]
      = (some (99/10), some (44/5)) := by
    simp +decide [parseIpsaeReport, isCandidateLine, pySplit, splitBy, tryParseTwo, pf0,
      reportRowContains, reportRowGood, maxMarker, hashMark, emptyStr, dotChar,
      hasInfix, digitsVal]
    norm_num
  have h2 : specParseBeginsMax pf0 [reportRowContains, reportRowGood]
      = (some (3/2), some (5/2)) := by
    simp +decide [specParseBeginsMax, beginsWithMaxLine, isCandidateLine, pySplit,
      splitBy, tryParseTwo, pf0, reportRowContains, reportRowGood, maxMarker,
      hashMark, emptyStr, dotChar, hasInfix, digitsVal]
    norm_num
  refine ⟨h1, h2, ?_⟩
  rw [h1, h2]
  norm_num [Prod.ext_iff]

/-- Claim C8 as amended: the parser extracts fields 5 and 10 from the
first non-comment, non-blank row that *contains* the `max` marker and
has at least 11 whitespace-separated fields (rows with the marker but
fewer fields are passed over, and a failed first conversion leaves both
scores unset). -/
theorem C8_amended_contains_marker : ∀ (pf : String → Option ℚ) (lines : List String),
    parseIpsaeReport pf lines = specParseContainsMax pf lines := by
  intro pf lines
  induction lines with
  | nil => rfl
  | cons line rest ih =>
    by_cases hc : isCandidateLine line = true
    · by_cases hl : 11 ≤ (pySplit line).length
      · unfold specParseContainsMax
        rw [List.find?_cons_of_pos _ (by simp [hc, hl])]
        simp [parseIpsaeReport, hc, hl]
      · have hskip : parseIpsaeReport pf (line :: rest) = parseIpsaeReport pf rest := by
          simp [parseIpsaeReport, hc, hl]
        have hfind :
            List.find? (fun l => isCandidateLine l && decide (11 ≤ (pySplit l).length))
                (line :: rest)
              = List.find? (fun l => isCandidateLine l && decide (11 ≤ (pySplit l).length))
                  rest :=
          List.find?_cons_of_neg _ (by simp [hl])
        rw [hskip, ih]
        unfold specParseContainsMax
        rw [hfind]
    · have hc' : isCandidateLine line = false := by
        simpa using hc
      have hskip : parseIpsaeReport pf (line :: rest) = parseIpsaeReport pf rest := by
        simp [parseIpsaeReport, hc']
      have hfind :
          List.find? (fun l => isCandidateLine l && decide (11 ≤ (pySplit l).length))
              (line :: rest)
            = List.find? (fun l => isCandidateLine l && decide (11 ≤ (pySplit l).length))
                rest :=
        List.find?_cons_of_neg _ (by simp [hc'])
      rw [hskip, ih]
      unfold specParseContainsMax
      rw [hfind]

/-- Claim C2 (counterexample).  `sort_values` is called with its
default (unstable) sort kind, so its contract only promises a
descending permutation: on two tied ranking rows the reversed order
`rankedTieSwapped` is a legitimate output, and it does not preserve the
input encounter order of the tied pair. -/
theorem C2_counterexample :
    SortsDescBy iptmKey (rankingTable npzFilesTie) rankedTieSwapped ∧
    ¬ TiesPreserveOrder iptmKey (rankingTable npzFilesTie) rankedTieSwapped := by
  constructor
  · refine ⟨by decide, ?_⟩
    simp [SortedDescBy, rankedTieSwapped, rankRecOf, iptmKey]
  · intro h
    have h1 := h { design_name := "d1", design_to_target_iptm := 5, iptm := 0, ptm := 0 }
      (by decide) { design_name := "d2", design_to_target_iptm := 5, iptm := 0, ptm := 0 }
      (by decide) (by decide) (by decide)
    exact absurd h1 (by decide)

/-- Claim C2 as amended: the ranked table is a permutation of the
ranking rows (one per loadable file), arranged in weakly descending
order of the primary confidence field; the relative order of tied rows
is not specified. -/
theorem C2_amended_sort_guarantees : ∀ (files : List NpzFile) (output : List RankRec),
    SortsDescBy iptmKey (rankingTable files) output →
    List.Perm output (rankingTable files) ∧
    List.Pairwise (fun a b => iptmKey b ≤ iptmKey a) output ∧
    ∀ r ∈ output, ∃ f ∈ files, f.loadOk = true ∧ r = rankRecOf f := by
  intro files output h
  obtain ⟨hperm, hsort⟩ := h
  refine ⟨hperm, pairwise_of_sortedDescBy _ _ hsort, ?_⟩
  intro r hr
  have hr' : r ∈ rankingTable files := hperm.mem_iff.mp hr
  unfold rankingTable at hr'
  obtain ⟨f, hf, rfl⟩ := List.mem_map.mp hr'
  obtain ⟨hfmem, hload⟩ := List.mem_filter.mp hf
  exact ⟨f, hfmem, by simpa using hload, rfl⟩

/-- Witness for the amended C2, at the three-candidate example. -/
theorem C2_witness :
    List.Perm rankedExample (rankingTable npzFilesExample) ∧
    List.Pairwise (fun a b => iptmKey b ≤ iptmKey a) rankedExample ∧
    ∀ r ∈ rankedExample, ∃ f ∈ npzFilesExample, f.loadOk = true ∧ r = rankRecOf f :=
  C2_amended_sort_guarantees npzFilesExample rankedExample
    ⟨by decide, by simp [SortedDescBy, rankedExample, iptmKey]
                   exact ⟨by decide, by decide⟩⟩

/-- Claim C1 (counterexample).  A candidate whose structure-prediction
invocation times out does not get skipped: `subprocess.run` raises
`TimeoutExpired`, nothing catches it, and the whole batch dies — the
candidates after it are never processed. -/
theorem C1_counterexample :
    processCandidate pf0 envBoltzTimeout = CandidateOutcome.aborted ∧
    runScoring pf0 [envBoltzTimeout, envGood] = none := by
  constructor
  · decide
  · decide

/-- Claim C1 as amended: every per-candidate failure is contained to
that candidate and the batch continues, *except* that (a) a design
structure with chain `B` but no chain `A` raises an uncaught `KeyError`
(line 308), and (b) a timeout of the structure-prediction invocation
(line 76) or of the scoring invocation (line 88) raises an uncaught
`TimeoutExpired`; each of these aborts the whole pipeline.  The first
conjunct characterises exactly the aborting configurations; the second
shows a batch free of them always runs to completion. -/
theorem C1_amended_abort_characterisation : ∀ (pf : String → Option ℚ),
    (∀ e : CandidateEnv,
      processCandidate pf e = CandidateOutcome.aborted ↔ abortsCandidate e) ∧
    (∀ es : List CandidateEnv, (∀ x ∈ es, ¬ abortsCandidate x) →
      (runScoring pf es).isSome = true) := by
  intro pf
  have herr : ∀ e : CandidateEnv,
      run_ipsae pf e = Except.error ()
        ↔ (e.ipsaeScriptExists = true ∧ e.ipsaeRun = SubprocessOutcome.timedOut) := by
    intro e
    unfold run_ipsae
    cases hscr : e.ipsaeScriptExists <;> cases hir : e.ipsaeRun <;>
      cases hiof : e.ipsaeOutFound <;> simp [hscr, hir, hiof]
  have hiff : ∀ e : CandidateEnv,
      processCandidate pf e = CandidateOutcome.aborted ↔ abortsCandidate e := by
    intro e
    obtain ⟨cif, chB, chA, b2, pae, pl, pc, comb, scr, ir, iof, rl⟩ := e
    cases cif <;> cases chB <;> cases chA <;> cases b2 <;> cases pae <;> cases pl <;>
      cases pc <;> cases comb <;>
      simp [processCandidate, abortsCandidate]
    all_goals {
      rcases hr : run_ipsae pf
          ⟨true, true, true, SubprocessOutcome.ok, true, true, true, true,
            scr, ir, iof, rl⟩ with u | v
      · cases u
        have h2 := (herr ⟨true, true, true, SubprocessOutcome.ok, true, true, true, true,
          scr, ir, iof, rl⟩).mp hr
        simp [hr]
        exact h2
      · have h3 : ¬ (scr = true ∧ ir = SubprocessOutcome.timedOut) := by
          intro hcon
          have h4 := (herr ⟨true, true, true, SubprocessOutcome.ok, true, true, true, true,
            scr, ir, iof, rl⟩).mpr ⟨hcon.1, hcon.2⟩
          rw [hr] at h4
          simp at h4
        simp [hr, h3]
    }
  refine ⟨hiff, ?_⟩
  intro es
  induction es with
  | nil => intro _; rfl
  | cons e rest ih =>
    intro hes
    have hne : processCandidate pf e ≠ CandidateOutcome.aborted := by
      intro hab
      exact hes e (List.mem_cons_self e rest) ((hiff e).mp hab)
    have ih' := ih (fun x hx => hes x (List.mem_cons_of_mem e hx))
    cases hp : processCandidate pf e with
    | aborted => exact absurd hp hne
    | skipped w => simpa [runScoring, hp] using ih'
    | recorded a b =>
        simp only [runScoring, hp]
        simpa using ih'

/-- Witness for the amended C1: a batch of two healthy candidates (no
abort configuration) runs to completion. -/
theorem C1_witness : (runScoring pf0 [envGood, envZeroScores]).isSome = true :=
  (C1_amended_abort_characterisation pf0).2 [envGood, envZeroScores] (by decide)

/-- With pairwise distinct names on the right table, a nonempty
name-filter of it has exactly one row. -/
theorem filter_name_length (right : List ScoreRec)
    (hR : (right.map (fun r => r.design_name)).Nodup) (n : String)
    (hne : right.filter (fun r => r.design_name == n) ≠ []) :
    (right.filter (fun r => r.design_name == n)).length = 1 := by
  induction right with
  | nil => exact absurd rfl hne
  | cons r rest ih =>
    rw [List.map_cons, List.nodup_cons] at hR
    obtain ⟨hnotin, hrest⟩ := hR
    by_cases hb : (r.design_name == n) = true
    · have hb' : r.design_name = n := by simpa using hb
      have hrest0 : rest.filter (fun x => x.design_name == n) = [] := by
        rw [List.filter_eq_nil_iff]
        intro x hx hbx
        have hx' : x.design_name = n := by simpa using hbx
        exact hnotin (by
          rw [hb', ← hx']
          exact List.mem_map_of_mem (fun z => z.design_name) hx)
      simp [List.filter_cons, hb, hrest0]
    · have hbf : (r.design_name == n) = false := by simpa using hb
      simp only [List.filter_cons, hbf, Bool.false_eq_true, if_false] at hne ⊢
      exact ih hrest hne

/-- Each left row contributes exactly one row of its own name to the
left merge when the right names are distinct, so name counts carry over
from the left table. -/
theorem merged_countP (df : List RankRec) (results : List ScoreRec)
    (hR : (results.map (fun r => r.design_name)).Nodup) (n : String) :
    (leftMergeOnName df results).countP (fun f => f.design_name == n)
      = df.countP (fun l => l.design_name == n) := by
  induction df with
  | nil => rfl
  | cons l rest ih =>
    have hcons : leftMergeOnName (l :: rest) results
        = (match results.filter (fun r => r.design_name == l.design_name) with
           | [] => [unmatchedRow l]
           | ms => ms.map (matchedRow l)) ++ leftMergeOnName rest results := by
      simp [leftMergeOnName]
    have hcontrib : List.countP (fun f => f.design_name == n)
        (match results.filter (fun r => r.design_name == l.design_name) with
         | [] => [unmatchedRow l]
         | ms => List.map (matchedRow l) ms)
        = if (l.design_name == n) = true then 1 else 0 := by
      cases hm : results.filter (fun r => r.design_name == l.design_name) with
      | nil => simp [unmatchedRow, List.countP_cons]
      | cons m ms =>
          have hlen : (m :: ms).length = 1 := by
            have h1 := filter_name_length results hR l.design_name
              (by rw [hm]; exact List.cons_ne_nil m ms)
            rw [hm] at h1
            exact h1
          have hms : ms = [] := by
            cases ms with
            | nil => rfl
            | cons x xs => simp at hlen
          subst hms
          simp [matchedRow, List.countP_cons]
    rw [hcons, List.countP_append, ih, hcontrib, List.countP_cons]
    omega

/-- A table with pairwise distinct names counts each of its members'
names exactly once. -/
theorem countP_name_self (df : List RankRec) (l : RankRec)
    (hL : (df.map (fun x => x.design_name)).Nodup) (hl : l ∈ df) :
    df.countP (fun x => x.design_name == l.design_name) = 1 := by
  induction df with
  | nil => cases hl
  | cons a rest ih =>
    rw [List.map_cons, List.nodup_cons] at hL
    obtain ⟨ha, hrest⟩ := hL
    rw [List.countP_cons]
    rcases List.mem_cons.mp hl with rfl | hmem
    · have h0 : rest.countP (fun x => x.design_name == l.design_name) = 0 := by
        rw [List.countP_eq_zero]
        intro x hx hbx
        have hx' : x.design_name = l.design_name := by simpa using hbx
        exact ha (by
          rw [← hx']
          exact List.mem_map_of_mem (fun z => z.design_name) hx)
      simp [h0]
    · have hane : (a.design_name == l.design_name) = false := by
        by_contra hcon
        have : a.design_name = l.design_name := by
          simpa using Bool.of_not_eq_false hcon
        exact ha (by
          rw [this]
          exact List.mem_map_of_mem (fun z => z.design_name) hmem)
      rw [ih hrest hmem, hane]
      rfl

/-- Any row of the left merge is either its left row null-padded, or
its left row joined with a right row of the same name. -/
theorem mem_leftMerge_cases (df : List RankRec) (results : List ScoreRec)
    (f : FinalRec) (hf : f ∈ leftMergeOnName df results) :
    ∃ l ∈ df, f = unmatchedRow l ∨
      ∃ r ∈ results, r.design_name = l.design_name ∧ f = matchedRow l r := by
  unfold leftMergeOnName at hf
  obtain ⟨l, hl, hfl⟩ := List.mem_flatMap.mp hf
  refine ⟨l, hl, ?_⟩
  cases hm : results.filter (fun r => r.design_name == l.design_name) with
  | nil =>
      rw [hm] at hfl
      simp at hfl
      exact Or.inl hfl
  | cons m ms =>
      rw [hm] at hfl
      obtain ⟨r, hr, rfl⟩ := List.mem_map.mp hfl
      have hr' : r ∈ results.filter (fun x => x.design_name == l.design_name) := by
        rw [hm]
        exact hr
      obtain ⟨hrmem, hrname⟩ := List.mem_filter.mp hr'
      exact Or.inr ⟨r, hrmem, by simpa using hrname, rfl⟩

/-- Claim C3: under distinct design names on both sides (which hold for
tables built from distinct files and a once-per-candidate scoring
loop), every ranked design appears exactly once in any final table the
aggregation can produce; designs never scored carry nulls in every
merged scoring column; and the final table is in weakly descending
order of the null-filled interface score. -/
theorem C3_final_aggregation : ∀ (df : List RankRec) (results : List ScoreRec)
    (final : List FinalRec),
    (df.map (fun l => l.design_name)).Nodup →
    (results.map (fun r => r.design_name)).Nodup →
    AggregatesTo df results final →
    (∀ l ∈ df, final.countP (fun f => f.design_name == l.design_name) = 1) ∧
    (∀ f ∈ final, (∀ r ∈ results, r.design_name ≠ f.design_name) →
      f.binder_sequence = none ∧ f.binder_length = none ∧ f.ipSAE = none ∧
      f.pDockQ = none ∧ f.interface_pae = none ∧ f.avg_plddt = none) ∧
    List.Pairwise (fun a b => finalSortKey b ≤ finalSortKey a) final := by
  intro df results final hL hR hag
  obtain ⟨hperm, hsort⟩ := hag
  refine ⟨?_, ?_, pairwise_of_sortedDescBy _ _ hsort⟩
  · intro l hl
    rw [hperm.countP_eq, merged_countP df results hR]
    exact countP_name_self df l hL hl
  · intro f hf hnever
    have hf' : f ∈ leftMergeOnName df results := hperm.mem_iff.mp hf
    obtain ⟨l, _, hcase⟩ := mem_leftMerge_cases df results f hf'
    rcases hcase with rfl | ⟨r, hrmem, hrname, rfl⟩
    · exact ⟨rfl, rfl, rfl, rfl, rfl, rfl⟩
    · exact absurd (by simp [matchedRow, hrname]) (hnever r hrmem)

/-- Witness for C3 at the three-candidate aggregation example. -/
theorem C3_witness :
    List.Pairwise (fun a b => finalSortKey b ≤ finalSortKey a) finalExample :=
  (C3_final_aggregation dfExample resultsExample finalExample
    (by decide) (by decide)
    ⟨by decide, by
      simp [SortedDescBy, finalExample, finalSortKey, matchedRow, unmatchedRow,
        dfExample, rankedExample, resultsExample]⟩).2.2

/-- Distance symmetry lifts to the cutoff test. -/
theorem withinCutoff_symm (p q : Coord) (c : ℚ) :
    withinCutoff p q c = withinCutoff q p c := by
  unfold withinCutoff
  have hsym : sqDist p q = sqDist q p := by unfold sqDist; ring
  rw [hsym]

/-- Membership after a dict assignment: an entry is untouched or is the
assigned pair. -/
theorem mem_dictSet_cases (d : Interfaces) (k : String) (v : Finset Int)
    (e : String × Finset Int) (h : e ∈ dictSet d k v) : e ∈ d ∨ e = (k, v) := by
  unfold dictSet at h
  by_cases hc : d.any (fun x => x.1 == k) = true
  · rw [if_pos hc] at h
    obtain ⟨x, hx, hval⟩ := List.mem_map.mp h
    by_cases hxk : (x.1 == k) = true
    · rw [if_pos hxk] at hval
      exact Or.inr hval.symm
    · rw [if_neg hxk] at hval
      exact Or.inl (hval ▸ hx)
  · rw [if_neg hc] at h
    rcases List.mem_append.mp h with h1 | h2
    · exact Or.inl h1
    · simp at h2
      exact Or.inr h2

/-- A successful dict lookup returns an entry of the dict. -/
theorem dictLookup_mem (d : Interfaces) (k : String) (s : Finset Int)
    (h : dictLookup d k = some s) : (k, s) ∈ d := by
  unfold dictLookup at h
  cases hf : d.find? (fun e => e.1 == k) with
  | none => rw [hf] at h; cases h
  | some e =>
      rw [hf] at h
      obtain ⟨e1, e2⟩ := e
      have hkey : (e1 == k) = true := by simpa using List.find?_some hf
      have hmem := List.mem_of_find?_eq_some hf
      have h1 : e1 = k := by simpa using hkey
      have h2 : e2 = s := by simpa using h
      rw [← h1, ← h2]
      exact hmem

/-- Membership after `d[k].add(v)`: an entry is untouched, or it holds
the key `k` and each of its positions is the new `v` or comes from an
entry of `k` already in the dict. -/
theorem mem_dictAdd_cases (d : Interfaces) (k : String) (v : Int)
    (e : String × Finset Int) (h : e ∈ dictAdd d k v) :
    e ∈ d ∨ (e.1 = k ∧ ∀ p ∈ e.2, p = v ∨ ∃ s, (k, s) ∈ d ∧ p ∈ s) := by
  unfold dictAdd at h
  rcases mem_dictSet_cases _ _ _ _ h with h1 | h2
  · exact Or.inl h1
  · refine Or.inr ⟨by rw [h2], ?_⟩
    intro p hp
    rw [h2] at hp
    rcases Finset.mem_insert.mp hp with rfl | hold
    · exact Or.inl rfl
    · cases hl : dictLookup d k with
      | none => rw [hl] at hold; simp at hold
      | some s =>
          rw [hl] at hold
          exact Or.inr ⟨s, dictLookup_mem d k s hl, by simpa using hold⟩

/-- Soundness is preserved by adding a justified position. -/
theorem sound_dictAdd (chains : List Chain) (cutoff : ℚ) (d : Interfaces)
    (k : String) (v : Int) (hd : Sound chains cutoff d)
    (hcc : CrossContact chains cutoff k v) : Sound chains cutoff (dictAdd d k v) := by
  intro e he p hp
  rcases mem_dictAdd_cases d k v e he with h1 | ⟨hk, hall⟩
  · exact hd e h1 p hp
  · rcases hall p hp with rfl | ⟨s, hs, hps⟩
    · rw [hk]
      exact hcc
    · rw [hk]
      exact hd (k, s) hs p hps

/-- Soundness is preserved by assigning an empty set (line 36). -/
theorem sound_dictSet_empty (chains : List Chain) (cutoff : ℚ) (d : Interfaces)
    (k : String) (hd : Sound chains cutoff d) :
    Sound chains cutoff (dictSet d k ∅) := by
  intro e he p hp
  rcases mem_dictSet_cases _ _ _ _ he with h1 | h2
  · exact hd e h1 p hp
  · rw [h2] at hp
    simp at hp

/-- Soundness through the inner residue loop. -/
theorem innerScan_sound (chains : List Chain) (cutoff : ℚ) (aid bid : String)
    (pa : Coord) (apos : Int) :
    ∀ (rbs : List Residue) (d : Interfaces), Sound chains cutoff d →
    (∀ rb ∈ rbs, rb.standard = true → ∀ pb, rb.ca = some pb →
      withinCutoff pa pb cutoff = true →
      CrossContact chains cutoff aid apos ∧ CrossContact chains cutoff bid rb.pos) →
    Sound chains cutoff (innerScan aid bid pa apos cutoff rbs d) := by
  intro rbs
  induction rbs with
  | nil =>
      intro d hd _
      simpa [innerScan] using hd
  | cons rb rest ih =>
      intro d hd H
      simp only [innerScan]
      apply ih
      · cases hca : rb.ca with
        | none => simpa [hca] using hd
        | some pb =>
            by_cases hcond : (rb.standard && withinCutoff pa pb cutoff) = true
            · rw [Bool.and_eq_true] at hcond
              obtain ⟨hstd, hwc⟩ := hcond
              have hcc := H rb (List.mem_cons_self rb rest) hstd pb hca hwc
              simp only [hca, hstd, hwc, Bool.and_self, if_true]
              exact sound_dictAdd chains cutoff _ bid rb.pos
                (sound_dictAdd chains cutoff d aid apos hd hcc.1) hcc.2
            · simp only [hca]
              rw [if_neg hcond]
              exact hd
      · intro rb' h' hstd pb hca hwc
        exact H rb' (List.mem_cons_of_mem rb h') hstd pb hca hwc

/-- Soundness through the outer residue loop. -/
theorem outerScan_sound (chains : List Chain) (cutoff : ℚ) (aid bid : String)
    (rbs : List Residue) :
    ∀ (ras : List Residue) (d : Interfaces), Sound chains cutoff d →
    (∀ ra ∈ ras, ra.standard = true → ∀ pa, ra.ca = some pa →
      ∀ rb ∈ rbs, rb.standard = true → ∀ pb, rb.ca = some pb →
      withinCutoff pa pb cutoff = true →
      CrossContact chains cutoff aid ra.pos ∧ CrossContact chains cutoff bid rb.pos) →
    Sound chains cutoff (outerScan aid bid cutoff rbs ras d) := by
  intro ras
  induction ras with
  | nil =>
      intro d hd _
      simpa [outerScan] using hd
  | cons ra rest ih =>
      intro d hd H
      simp only [outerScan]
      apply ih
      · cases hca : ra.ca with
        | none => simpa [hca] using hd
        | some pa =>
            by_cases hstd : ra.standard = true
            · simp only [hca, hstd, if_true]
              apply innerScan_sound chains cutoff aid bid pa ra.pos rbs d hd
              intro rb hrb hstdb pb hcab hwc
              exact H ra (List.mem_cons_self ra rest) hstd pa hca rb hrb hstdb pb hcab hwc
            · simp only [hca]
              rw [if_neg hstd]
              exact hd
      · intro ra' h' hstda pa hca rb hrb hstdb pb hcab hwc
        exact H ra' (List.mem_cons_of_mem ra h') hstda pa hca rb hrb hstdb pb hcab hwc

/-- Soundness through the scan of one chain against all later chains:
every position added is witnessed by a contact between two chains that
occupy distinct places of the chain list. -/
theorem scanAgainst_sound (C0 : List Chain) (cutoff : ℚ) (cA : Chain) :
    ∀ (later : List Chain) (d : Interfaces), Sound C0 cutoff d →
    (∀ cB ∈ later, List.Sublist [cA, cB] C0) →
    Sound C0 cutoff (scanAgainst cA cutoff later d) := by
  intro later
  induction later with
  | nil =>
      intro d hd _
      simpa [scanAgainst] using hd
  | cons cB rest ih =>
      intro d hd Hsub
      simp only [scanAgainst]
      apply ih
      · apply outerScan_sound C0 cutoff cA.id cB.id cB.residues cA.residues d hd
        intro ra hra hstda pa hcaa rb hrb hstdb pb hcab hwc
        have hsub := Hsub cB (List.mem_cons_self cB rest)
        constructor
        · exact ⟨cA, cB, Or.inl hsub, rfl, ra, hra, hstda, rfl, pa, pb, hcaa,
            rb, hrb, hstdb, hcab, hwc⟩
        · refine ⟨cB, cA, Or.inr hsub, rfl, rb, hrb, hstdb, rfl, pb, pa, hcab,
            ra, hra, hstda, hcaa, ?_⟩
          rw [withinCutoff_symm]
          exact hwc
      · intro cB' h'
        exact Hsub cB' (List.mem_cons_of_mem cB h')

/-- Soundness through the whole chain loop. -/
theorem detectLoop_sound (C0 : List Chain) (cutoff : ℚ) :
    ∀ (cs : List Chain) (d : Interfaces), cs.Sublist C0 → Sound C0 cutoff d →
    Sound C0 cutoff (detectLoop cs cutoff d) := by
  intro cs
  induction cs with
  | nil =>
      intro d _ hd
      simpa [detectLoop] using hd
  | cons cA rest ih =>
      intro d hsub hd
      simp only [detectLoop]
      apply ih
      · exact (List.sublist_cons_self cA rest).trans hsub
      · apply scanAgainst_sound C0 cutoff cA rest _
          (sound_dictSet_empty C0 cutoff d cA.id hd)
        intro cB hcB
        have h1 : List.Sublist [cB] rest := List.singleton_sublist.mpr hcB
        have h2 : List.Sublist [cA, cB] (cA :: rest) := List.Sublist.cons₂ cA h1
        exact h2.trans hsub

/-- Claim C6: every position in every interface set the detector
returns belongs to a standard residue with a C-alpha coordinate of a
chain bearing that set's id, witnessed by a within-cutoff contact with
such a residue of a chain at a *different* position of the chain list —
so sets are sound and only cross-chain comparisons (the `i < j` guard
of line 39) ever create membership. -/
theorem C6_interface_soundness : ∀ (chains : List Chain) (cutoff : ℚ) (d : Interfaces),
    detect_interface chains cutoff = some d →
    ∀ e ∈ d, ∀ p ∈ e.2, CrossContact chains cutoff e.1 p := by
  intro chains cutoff d hdet
  unfold detect_interface at hdet
  by_cases hlen : chains.length < 2
  · rw [if_pos hlen] at hdet
    cases hdet
  · rw [if_neg hlen] at hdet
    obtain rfl : detectLoop chains cutoff [] = d := Option.some.inj hdet
    exact detectLoop_sound chains cutoff chains [] (List.Sublist.refl chains)
      (fun e he => absurd he (List.not_mem_nil e))

/-- Witness for C6: on the two-chain example, position 2 reported for
chain `A` is justified by a cross-chain contact. -/
theorem C6_witness : CrossContact chainsExample 8 "A" 2 := by
  have hdet : detect_interface chainsExample 8
      = some [("A", ({2} : Finset Int)), ("B", (∅ : Finset Int))] := by
    have w1 : withinCutoff ((100 : ℚ), 0, 0) (0, 0, 0) 8 = false := by
      norm_num [withinCutoff, sqDist]
    have w2 : withinCutoff ((3 : ℚ), 4, 0) (0, 0, 0) 8 = true := by
      norm_num [withinCutoff, sqDist]
    have w3 : withinCutoff ((0 : ℚ), 100, 0) (0, 0, 0) 8 = false := by
      norm_num [withinCutoff, sqDist]
    simp [detect_interface, detectLoop, scanAgainst, outerScan, innerScan,
      dictAdd, dictSet, dictLookup, chainsExample, w1, w2, w3,
      -Prod.mk_zero_zero, -Prod.mk_one_one]
  exact C6_interface_soundness chainsExample 8
    [("A", ({2} : Finset Int)), ("B", (∅ : Finset Int))] hdet
    ("A", ({2} : Finset Int)) (by simp) 2 (by simp)

end BinderPipeline
